import Mathlib

/-!
Shallow embedding of the ReAct step engine
(`src/llama_index/agent/v1/react.py`, class `ReActAgentStepEngine`).

The engine's collaborators (language model, prompt formatter, output
parser, tools, memory) are opaque in the source; here they are fields of
the `Engine` structure (pure functions), so every engine operation is an
executable Lean function.  Stateful Python code (the shared, in-place
mutated `step_state` lists and the memory buffer) becomes explicit state
passing: each operation takes a `State` and returns the updated `State`;
an operation that raises returns `Except.error` carrying the error kind
together with the state as it stood at the raise point, so that theorems
can speak about which mutations had already happened when an exception
propagated.
-/

set_option autoImplicit false

namespace ReactV1

/-- Message roles (from `llama_index.llms.base.MessageRole`; only the
roles this engine touches). -/
inductive MessageRole where
  | user
  | assistant
  | system
deriving DecidableEq, Repr

/-- A chat message; `content` is optional exactly as in the source, where
`output.message.content is None` is a checked condition. -/
structure ChatMessage where
  role : MessageRole
  content : Option String
deriving DecidableEq, Repr

/-- A model response wraps one message (`ChatResponse.message`). -/
structure ChatResponse where
  message : ChatMessage
deriving DecidableEq, Repr

/-- Modelled from the spec: `ToolOutput` is the opaque result of one tool
call, "with a string representation usable as an observation" (§3); the
class itself lives outside this file's source. -/
structure ToolOutput where
  content : String
deriving DecidableEq, Repr

/-- Modelled from the spec: the string rendering of a `ToolOutput`
(`str(tool_output)` in the source). -/
def ToolOutput.toStr (o : ToolOutput) : String := o.content

/-- Modelled from the spec: tool metadata carries a name
(`Tool: {name: string, ...}`, §6); `ToolMetadata` itself lives outside
this file's source. -/
structure ToolMetadata where
  name : String
deriving Repr

/-- Modelled from the spec: `metadata.get_name()` returns the tool's
declared name (a plain string per §6). -/
def ToolMetadata.getName (m : ToolMetadata) : String := m.name

/-- Modelled from the spec: a tool is a named callable with a blocking
`call` and a suspending `acall`, each mapping keyword arguments to a
`ToolOutput` (§6); a raising tool is an `Except.error`. -/
structure Tool where
  metadata : ToolMetadata
  call : List (String × String) → Except String ToolOutput
  acall : List (String × String) → Except String ToolOutput

/-- Modelled from the spec: `adapt_to_async_tool` wraps each tool "into a
uniform synchronous/asynchronous-callable shape" (§4.1 step 1); our
`Tool` already carries both shapes, so the adapter is the identity. -/
def adaptToAsyncTool (t : Tool) : Tool := t

/-- The tagged reasoning-step variant
(`llama_index.agent.react.types`): `Action`, `Observation`, `Response`. -/
inductive BaseReasoningStep where
  | action (thought : String) (action : String)
      (actionInput : List (String × String))
  | observation (observation : String)
  | response (thought : String) (response : String)
deriving DecidableEq, Repr

namespace BaseReasoningStep

/-- The terminal flag: only `Response` is terminal
(`reasoning_step.is_done`). -/
def is_done : BaseReasoningStep → Bool
  | .response .. => true
  | _ => false

/-- Modelled from the spec: each variant "renders to a human-readable
content string" (§3, `get_content`); the exact format is owned by the
excluded types module, so any injective-enough rendering serves. -/
def getContent : BaseReasoningStep → String
  | .action th a inp =>
      "Thought: " ++ th ++ "\nAction: " ++ a ++ "\nAction Input: "
        ++ String.intercalate ", " (inp.map fun p => p.1 ++ "=" ++ p.2)
  | .observation o => "Observation: " ++ o
  | .response th r => "Thought: " ++ th ++ "\nResponse: " ++ r

end BaseReasoningStep

/-- Errors of the engine's taxonomy (spec §7); the source raises
`ValueError` / `KeyError` / `NotImplementedError` at the corresponding
places. -/
inductive Err where
  | ambiguousToolSource
  | emptyModelOutput
  | reasoningParseError (msg : String)
  | unexpectedStepType
  | unknownTool (name : String)
  | toolExecutionError (msg : String)
  | noReasoningSteps
  | maxIterationsReached
  | unsupportedStreaming
deriving DecidableEq, Repr

/-- A task (`llama_index.agent.v1.schema.Task`): opaque id and input
text.  Modelled from the spec: the schema module is outside this file's
source; memory and step state are threaded separately in `State`. -/
structure Task where
  taskId : String
  input : String
deriving DecidableEq, Repr

/-- A task step (`llama_index.agent.v1.schema.TaskStep`).  Modelled from
the spec: opaque id, back-reference to its task, optional input override
(§3); the shared memory handle and step state live in `State`. -/
structure TaskStep where
  taskId : String
  stepId : String
  input : Option String
deriving DecidableEq, Repr

/-- Modelled from the spec: `step.get_next_step(step_id, input)`
constructs the follow-up step "sharing the same step-state reference,
with a freshly generated step id and no input override" (§4.1 step 7);
state sharing is implicit here because state is threaded separately. -/
def TaskStep.getNextStep (step : TaskStep) (stepId : String)
    (input : Option String) : TaskStep :=
  { taskId := step.taskId, stepId := stepId, input := input }

/-- `AgentChatResponse(response=..., sources=...)`. -/
structure AgentChatResponse where
  response : String
  sources : List ToolOutput
deriving DecidableEq, Repr

/-- The result of one step run
(`llama_index.agent.v1.schema.TaskStepOutput`).  Modelled from the spec:
produced response, the step that produced it, the is-last flag, and the
follow-up steps (§3). -/
structure TaskStepOutput where
  output : AgentChatResponse
  taskStep : TaskStep
  isLast : Bool
  nextSteps : List TaskStep
deriving DecidableEq, Repr

/-- The mutable shared state of one task: the two step-state lists
(`step_state["sources"]`, `step_state["current_reasoning"]`) and the
conversational memory buffer (`step.memory`, an append/read log per §6). -/
structure State where
  sources : List ToolOutput
  currentReasoning : List BaseReasoningStep
  memory : List ChatMessage
deriving DecidableEq, Repr

/-- The engine with its opaque collaborators as pure-function fields:
`chat`/`achat` are the model's blocking and suspending entry points,
`format` the prompt formatter, `parse` the output parser
(`parse(text, is_streaming)`), and `getTools` the resolver installed by
the constructor (`self._get_tools`). -/
structure Engine where
  chat : List ChatMessage → ChatResponse
  achat : List ChatMessage → ChatResponse
  maxIterations : Nat
  format : List Tool → List ChatMessage → List BaseReasoningStep →
      List ChatMessage
  parse : String → Bool → Except String BaseReasoningStep
  getToolsRaw : String → List Tool

/-- `ReActAgentStepEngine.__init__`: installs `self._get_tools` from the
`tools` / `tool_retriever` arguments, raising when a non-empty tool list
and a retriever are both given (`len(tools) > 0 and tool_retriever is
not None`). -/
def mkEngine (tools : List Tool)
    (toolRetriever : Option (String → List Tool))
    (chat achat : List ChatMessage → ChatResponse)
    (maxIterations : Nat)
    (format : List Tool → List ChatMessage → List BaseReasoningStep →
      List ChatMessage)
    (parse : String → Bool → Except String BaseReasoningStep) :
    Except Err Engine :=
  if tools.length > 0 ∧ toolRetriever.isSome then
    .error .ambiguousToolSource
  else if tools.length > 0 then
    .ok ⟨chat, achat, maxIterations, format, parse, fun _ => tools⟩
  else
    match toolRetriever with
    | some retr => .ok ⟨chat, achat, maxIterations, format, parse, retr⟩
    | none => .ok ⟨chat, achat, maxIterations, format, parse, fun _ => []⟩

/-- `get_tools`: resolve and adapt (`[adapt_to_async_tool(t) for t in
self._get_tools(input)]`). -/
def Engine.getTools (eng : Engine) (input : String) : List Tool :=
  (eng.getToolsRaw input).map adaptToAsyncTool

/-- The dict comprehension `{tool.metadata.get_name(): tool for tool in
tools}` followed by `tools_dict[key]`: with duplicate names the later
tool overwrites the earlier, so lookup finds the last match. -/
def dictLookup (tools : List Tool) (key : String) : Option Tool :=
  tools.foldl
    (fun acc t => if t.metadata.getName = key then some t else acc) none

/-- As `dictLookup`, but built from `tool.metadata.name` as in
`_aprocess_actions` (the async twin uses `.name`, not `.get_name()`). -/
def adictLookup (tools : List Tool) (key : String) : Option Tool :=
  tools.foldl
    (fun acc t => if t.metadata.name = key then some t else acc) none

/-- `_extract_reasoning_step`: fail on empty content, parse, fail on a
parse error, return done when the step is terminal, otherwise insist the
step is an `Action` step. -/
def Engine.extractReasoningStep (eng : Engine) (output : ChatResponse)
    (isStreaming : Bool) :
    Except Err (String × List BaseReasoningStep × Bool) :=
  match output.message.content with
  | none => .error .emptyModelOutput
  | some messageContent =>
    match eng.parse messageContent isStreaming with
    | .error e => .error (.reasoningParseError e)
    | .ok reasoningStep =>
      let currentReasoning := [reasoningStep]
      if reasoningStep.is_done then
        .ok (messageContent, currentReasoning, true)
      else
        match reasoningStep with
        | .action .. => .ok (messageContent, currentReasoning, false)
        | _ => .error .unexpectedStepType

/-- `_process_actions` (blocking form): extract the step; when not done,
look the named tool up (a missing key raises — `UnknownTool`), call it
(a raising tool propagates — `ToolExecutionError`), append the raw
output to the shared `sources`, and append an `Observation` step to the
step-local reasoning list.  `sources` is the only piece of shared state
this method mutates, and only after the tool call succeeds. -/
def Engine.processActions (eng : Engine) (tools : List Tool)
    (output : ChatResponse) (sources : List ToolOutput) :
    Except Err (List BaseReasoningStep × Bool × List ToolOutput) :=
  match eng.extractReasoningStep output false with
  | .error e => .error e
  | .ok (_, currentReasoning, isDone) =>
    if isDone then
      .ok (currentReasoning, true, sources)
    else
      match currentReasoning.getLast? with
      | some (.action _ act actInput) =>
        match dictLookup tools act with
        | none => .error (.unknownTool act)
        | some tool =>
          match tool.call actInput with
          | .error exc => .error (.toolExecutionError exc)
          | .ok toolOutput =>
            let sources' := sources ++ [toolOutput]
            let observationStep :=
              BaseReasoningStep.observation toolOutput.toStr
            .ok (currentReasoning ++ [observationStep], false, sources')
      -- unreachable: when not done, extract guarantees an Action step
      -- (the source expresses this with an unchecked cast)
      | _ => .error .unexpectedStepType

/-- `_aprocess_actions` (suspending form): identical to
`processActions` except the tool dict is keyed by `metadata.name` and
the tool is invoked through `acall`. -/
def Engine.aprocessActions (eng : Engine) (tools : List Tool)
    (output : ChatResponse) (sources : List ToolOutput) :
    Except Err (List BaseReasoningStep × Bool × List ToolOutput) :=
  match eng.extractReasoningStep output false with
  | .error e => .error e
  | .ok (_, currentReasoning, isDone) =>
    if isDone then
      .ok (currentReasoning, true, sources)
    else
      match currentReasoning.getLast? with
      | some (.action _ act actInput) =>
        match adictLookup tools act with
        | none => .error (.unknownTool act)
        | some tool =>
          match tool.acall actInput with
          | .error exc => .error (.toolExecutionError exc)
          | .ok toolOutput =>
            let sources' := sources ++ [toolOutput]
            let observationStep :=
              BaseReasoningStep.observation toolOutput.toStr
            .ok (currentReasoning ++ [observationStep], false, sources')
      | _ => .error .unexpectedStepType

/-- `_get_response`: fail on an empty trace, fail when the trace length
equals the configured maximum iteration count, otherwise answer with
the terminal step's `response` field when the last entry is a
`ResponseReasoningStep` and with its rendered content otherwise.  A
pure function of `(current_reasoning, sources)`. -/
def Engine.getResponse (eng : Engine)
    (currentReasoning : List BaseReasoningStep)
    (sources : List ToolOutput) : Except Err AgentChatResponse :=
  if currentReasoning.length = 0 then
    .error .noReasoningSteps
  else if currentReasoning.length = eng.maxIterations then
    .error .maxIterationsReached
  else
    match currentReasoning.getLast? with
    | some (.response _ r) => .ok ⟨r, sources⟩
    | some lastStep => .ok ⟨lastStep.getContent, sources⟩
    -- unreachable: the trace was checked non-empty above
    | none => .error .noReasoningSteps

/-- `_run_step` (blocking form).  Resolve tools, format the prompt from
memory and the shared trace, call the model, process the parsed action,
extend the shared trace with the step-local reasoning list, assemble
the response, then either write the answer to memory (done) or build
exactly one follow-up step carrying the supplied fresh step id.  An
error result carries the state as mutated up to the raise point: an
error inside `processActions` precedes the trace extension, while a
`getResponse` error follows it. -/
def Engine.runStep (eng : Engine) (newStepId : String) (step : TaskStep)
    (task : Task) (st : State) :
    Except (Err × State) (TaskStepOutput × State) :=
  let tools := eng.getTools task.input
  let inputChat := eng.format tools st.memory st.currentReasoning
  let chatResponse := eng.chat inputChat
  match eng.processActions tools chatResponse st.sources with
  | .error e => .error (e, st)
  | .ok (reasoningSteps, isDone, sources') =>
    let currentReasoning' := st.currentReasoning ++ reasoningSteps
    match eng.getResponse currentReasoning' sources' with
    | .error e => .error (e, ⟨sources', currentReasoning', st.memory⟩)
    | .ok agentResponse =>
      let memory' :=
        if isDone then
          st.memory
            ++ [⟨MessageRole.assistant, some agentResponse.response⟩]
        else st.memory
      let newSteps :=
        if isDone then ([] : List TaskStep)
        else [step.getNextStep newStepId none]
      .ok (⟨agentResponse, step, isDone, newSteps⟩,
        ⟨sources', currentReasoning', memory'⟩)

/-- `_arun_step` (suspending form): as `runStep` but through `achat`
and `aprocessActions`. -/
def Engine.arunStep (eng : Engine) (newStepId : String) (step : TaskStep)
    (task : Task) (st : State) :
    Except (Err × State) (TaskStepOutput × State) :=
  let tools := eng.getTools task.input
  let inputChat := eng.format tools st.memory st.currentReasoning
  let chatResponse := eng.achat inputChat
  match eng.aprocessActions tools chatResponse st.sources with
  | .error e => .error (e, st)
  | .ok (reasoningSteps, isDone, sources') =>
    let currentReasoning' := st.currentReasoning ++ reasoningSteps
    match eng.getResponse currentReasoning' sources' with
    | .error e => .error (e, ⟨sources', currentReasoning', st.memory⟩)
    | .ok agentResponse =>
      let memory' :=
        if isDone then
          st.memory
            ++ [⟨MessageRole.assistant, some agentResponse.response⟩]
        else st.memory
      let newSteps :=
        if isDone then ([] : List TaskStep)
        else [step.getNextStep newStepId none]
      .ok (⟨agentResponse, step, isDone, newSteps⟩,
        ⟨sources', currentReasoning', memory'⟩)

/-- `stream_step`: declared but unimplemented — raises immediately
(`NotImplementedError`, the spec's `UnsupportedStreaming`), touching no
state. -/
def Engine.streamStep (_eng : Engine) (_step : TaskStep) (_task : Task)
    (st : State) : Except (Err × State) (TaskStepOutput × State) :=
  .error (.unsupportedStreaming, st)

/-- `astream_step`: the async twin of `stream_step`, equally
unimplemented. -/
def Engine.astreamStep (_eng : Engine) (_step : TaskStep) (_task : Task)
    (st : State) : Except (Err × State) (TaskStepOutput × State) :=
  .error (.unsupportedStreaming, st)

/-! Concrete fixtures: a tiny executable engine exercising the scenarios
of spec §8 (a resolvable `search` tool returning `result-y`, a model
that first acts and then answers). -/

/-- The `search` tool of the §8 scenario: both calling shapes return
`result-y`. -/
def searchTool : Tool :=
  { metadata := ⟨"search"⟩
    call := fun _ => .ok ⟨"result-y"⟩
    acall := fun _ => .ok ⟨"result-y"⟩ }

/-- A tool named `search` whose call raises. -/
def failTool : Tool :=
  { metadata := ⟨"search"⟩
    call := fun _ => .error "boom"
    acall := fun _ => .error "boom" }

/-- A concrete output parser: `act` parses to the §8 action naming
`search` with input `q = x`, `ans` to a terminal response, `bad` to an
action naming a tool `nonexistent`; anything else is a parse error. -/
def demoParse : String → Bool → Except String BaseReasoningStep :=
  fun s _ =>
    if s = "act" then .ok (.action "think" "search" [("q", "x")])
    else if s = "ans" then .ok (.response "think" "final-answer")
    else if s = "bad" then .ok (.action "think" "nonexistent" [])
    else .error "malformed"

/-- A concrete prompt formatter that only records whether the trace is
still empty (enough to steer the two-call model below). -/
def demoFormat : List Tool → List ChatMessage → List BaseReasoningStep →
    List ChatMessage :=
  fun _ _ cr => [⟨.user, some (if cr.isEmpty then "p0" else "p1")⟩]

/-- A model that acts on the first call (empty trace) and answers on
any later call. -/
def demoChat : List ChatMessage → ChatResponse :=
  fun msgs =>
    ⟨⟨.assistant,
      some (if msgs = [⟨MessageRole.user, some "p0"⟩] then "act"
            else "ans")⟩⟩

/-- A model that always returns the unknown-tool action text. -/
def badChat : List ChatMessage → ChatResponse :=
  fun _ => ⟨⟨.assistant, some "bad"⟩⟩

/-- A model that always acts. -/
def actChat : List ChatMessage → ChatResponse :=
  fun _ => ⟨⟨.assistant, some "act"⟩⟩

/-- A model that always answers terminally. -/
def ansChat : List ChatMessage → ChatResponse :=
  fun _ => ⟨⟨.assistant, some "ans"⟩⟩

/-- The demo engine of the §8 two-step scenario. -/
def demoEng : Engine :=
  ⟨demoChat, demoChat, 10, demoFormat, demoParse, fun _ => [searchTool]⟩

/-- An engine whose model names a tool absent from the resolved set. -/
def badEng : Engine :=
  ⟨badChat, badChat, 10, demoFormat, demoParse, fun _ => [searchTool]⟩

/-- An engine whose resolved tool raises on call. -/
def failEng : Engine :=
  ⟨actChat, actChat, 10, demoFormat, demoParse, fun _ => [failTool]⟩

/-- An engine that answers immediately but is capped at one iteration. -/
def max1Eng : Engine :=
  ⟨ansChat, ansChat, 1, demoFormat, demoParse, fun _ => []⟩

/-- An engine that answers immediately with the default cap. -/
def ansEng : Engine :=
  ⟨ansChat, ansChat, 10, demoFormat, demoParse, fun _ => []⟩

/-- The demo task and its first step. -/
def demoTask : Task := ⟨"t1", "q"⟩

/-- The first step of the demo task. -/
def demoStep0 : TaskStep := ⟨"t1", "s0", some "q"⟩

/-- The shared state after the first demo step: one source, the action
and its observation on the trace. -/
def demoState1 : State :=
  ⟨[⟨"result-y"⟩],
   [.action "think" "search" [("q", "x")], .observation "result-y"],
   []⟩

/-- The shared state after the second demo step: the terminal response
is appended and the answer is written to memory. -/
def demoState2 : State :=
  ⟨[⟨"result-y"⟩],
   [.action "think" "search" [("q", "x")], .observation "result-y",
    .response "think" "final-answer"],
   [⟨.assistant, some "final-answer"⟩]⟩

/-! Helper lemmas shared by the claim theorems. -/

/-- The two dict constructions agree because `get_name` returns the
metadata's name field. -/
theorem adictLookup_eq_dictLookup (tools : List Tool) (key : String) :
    adictLookup tools key = dictLookup tools key := rfl

/-- Folding the dict-comprehension step over a list yields either a
member of the list or the initial accumulator. -/
theorem dictLookup_foldl_mem (key : String) (t : Tool) :
    ∀ (tools : List Tool) (init : Option Tool),
      tools.foldl
        (fun acc tl =>
          if tl.metadata.getName = key then some tl else acc) init
        = some t →
      t ∈ tools ∨ init = some t := by
  intro tools
  induction tools with
  | nil => intro init h; exact Or.inr h
  | cons hd tl ih =>
    intro init h
    rw [List.foldl_cons] at h
    rcases ih _ h with hmem | hinit
    · exact Or.inl (List.mem_cons_of_mem _ hmem)
    · by_cases hc : hd.metadata.getName = key
      · rw [if_pos hc] at hinit
        exact Or.inl (Option.some.inj hinit ▸ List.mem_cons_self _ _)
      · rw [if_neg hc] at hinit
        exact Or.inr hinit

/-- A successful dict lookup returns a tool from the resolved list. -/
theorem dictLookup_mem (tools : List Tool) (key : String) (t : Tool)
    (h : dictLookup tools key = some t) : t ∈ tools := by
  rcases dictLookup_foldl_mem key t tools none h with hmem | hinit
  · exact hmem
  · exact absurd hinit (by simp)

/-- A successful extraction always returns a singleton step-local
reasoning list (the parsed step). -/
theorem extract_ok_singleton (eng : Engine) (output : ChatResponse)
    (strm : Bool) (msg : String) (cr : List BaseReasoningStep) (d : Bool)
    (h : eng.extractReasoningStep output strm = .ok (msg, cr, d)) :
    ∃ s, cr = [s] := by
  unfold Engine.extractReasoningStep at h
  split at h
  · exact Except.noConfusion h
  · split at h
    · exact Except.noConfusion h
    · split at h
      · simp only [Except.ok.injEq, Prod.mk.injEq] at h
        exact ⟨_, h.2.1.symm⟩
      · split at h
        · simp only [Except.ok.injEq, Prod.mk.injEq] at h
          exact ⟨_, h.2.1.symm⟩
        · exact Except.noConfusion h

/-- A successful `_process_actions` never returns an empty step-local
reasoning list: it holds the parsed step, possibly followed by the
synthesized observation. -/
theorem processActions_ok_ne_nil (eng : Engine) (tools : List Tool)
    (output : ChatResponse) (sources : List ToolOutput)
    (rs : List BaseReasoningStep) (d : Bool) (s' : List ToolOutput)
    (h : eng.processActions tools output sources = .ok (rs, d, s')) :
    rs ≠ [] := by
  unfold Engine.processActions at h
  cases hx : eng.extractReasoningStep output false with
  | error e => simp only [hx] at h; exact Except.noConfusion h
  | ok trip =>
    obtain ⟨msg, cr, done⟩ := trip
    obtain ⟨s, rfl⟩ := extract_ok_singleton eng output false msg cr done hx
    simp only [hx] at h
    split at h
    · simp only [Except.ok.injEq, Prod.mk.injEq] at h
      rw [← h.1]
      simp
    · split at h
      · split at h
        · exact Except.noConfusion h
        · split at h
          · exact Except.noConfusion h
          · simp only [Except.ok.injEq, Prod.mk.injEq] at h
            rw [← h.1]
            simp
      · exact Except.noConfusion h

/-- When the action's tool name misses the dict, `_process_actions`
fails with `UnknownTool` before appending anything to `sources`. -/
theorem processActions_unknown_tool (eng : Engine) (tools : List Tool)
    (output : ChatResponse) (sources : List ToolOutput)
    (c th a : String) (inp : List (String × String))
    (hc : output.message.content = some c)
    (hp : eng.parse c false = .ok (.action th a inp))
    (hl : dictLookup tools a = none) :
    eng.processActions tools output sources = .error (.unknownTool a) := by
  simp only [Engine.processActions, Engine.extractReasoningStep, hc, hp,
    BaseReasoningStep.is_done, Bool.false_eq_true, if_false,
    List.getLast?_singleton, hl]

/-- When the resolved tool's call raises, `_process_actions` fails with
`ToolExecutionError` before appending anything to `sources`. -/
theorem processActions_tool_error (eng : Engine) (tools : List Tool)
    (output : ChatResponse) (sources : List ToolOutput)
    (c th a msg : String) (inp : List (String × String)) (tool : Tool)
    (hc : output.message.content = some c)
    (hp : eng.parse c false = .ok (.action th a inp))
    (hl : dictLookup tools a = some tool)
    (hcall : tool.call inp = .error msg) :
    eng.processActions tools output sources
      = .error (.toolExecutionError msg) := by
  simp only [Engine.processActions, Engine.extractReasoningStep, hc, hp,
    BaseReasoningStep.is_done, Bool.false_eq_true, if_false,
    List.getLast?_singleton, hl, hcall]

/-- A terminal parse makes `_process_actions` return the singleton
trace-extension and `done`, leaving `sources` untouched. -/
theorem processActions_done (eng : Engine) (tools : List Tool)
    (output : ChatResponse) (sources : List ToolOutput) (c : String)
    (s : BaseReasoningStep)
    (hc : output.message.content = some c)
    (hp : eng.parse c false = .ok s)
    (hdone : s.is_done = true) :
    eng.processActions tools output sources = .ok ([s], true, sources) := by
  simp only [Engine.processActions, Engine.extractReasoningStep, hc, hp,
    hdone, if_true]

/-- An action parse with a resolvable, succeeding tool makes
`_process_actions` return the action and its observation, with the raw
tool output appended to `sources`. -/
theorem processActions_action_ok (eng : Engine) (tools : List Tool)
    (output : ChatResponse) (sources : List ToolOutput)
    (c th a : String) (inp : List (String × String)) (tool : Tool)
    (outp : ToolOutput)
    (hc : output.message.content = some c)
    (hp : eng.parse c false = .ok (.action th a inp))
    (hl : dictLookup tools a = some tool)
    (hcall : tool.call inp = .ok outp) :
    eng.processActions tools output sources
      = .ok ([.action th a inp, .observation outp.toStr], false,
          sources ++ [outp]) := by
  simp only [Engine.processActions, Engine.extractReasoningStep, hc, hp,
    BaseReasoningStep.is_done, Bool.false_eq_true, if_false,
    List.getLast?_singleton, hl, hcall, List.cons_append, List.nil_append]

/-- Response assembly on a trace ending in a freshly appended terminal
step yields that step's final-answer field (when below the cap). -/
theorem getResponse_terminal_append (eng : Engine)
    (cr : List BaseReasoningStep) (srcs : List ToolOutput) (th r : String)
    (hlen : cr.length + 1 ≠ eng.maxIterations) :
    eng.getResponse (cr ++ [.response th r]) srcs = .ok ⟨r, srcs⟩ := by
  unfold Engine.getResponse
  rw [List.getLast?_append_cons, List.getLast?_singleton]
  rw [if_neg (by simp), if_neg (by simpa using hlen)]

/-- Response assembly on a trace ending in a freshly appended
observation renders that observation's content (when below the cap). -/
theorem getResponse_obs_append (eng : Engine)
    (cr : List BaseReasoningStep) (srcs : List ToolOutput)
    (s : BaseReasoningStep) (o : String)
    (hlen : cr.length + 2 ≠ eng.maxIterations) :
    eng.getResponse (cr ++ [s, .observation o]) srcs
      = .ok ⟨(BaseReasoningStep.observation o).getContent, srcs⟩ := by
  unfold Engine.getResponse
  rw [List.getLast?_append_cons, List.getLast?_cons_cons,
    List.getLast?_singleton]
  rw [if_neg (by simp), if_neg (by simp; omega)]

/-- C3: response assembly on a non-empty trace whose length equals the
configured maximum iteration count fails with `MaxIterationsReached`;
hence whenever the trace reaches the cap with entries on it, the next
assembly fails this way. -/
theorem getResponse_max_iterations (eng : Engine)
    (cr : List BaseReasoningStep) (srcs : List ToolOutput)
    (hne : cr ≠ []) (hlen : cr.length = eng.maxIterations) :
    eng.getResponse cr srcs = .error .maxIterationsReached := by
  unfold Engine.getResponse
  rw [if_neg (fun h0 => hne (List.length_eq_zero.mp h0)), if_pos hlen]

/-- Witness for C3: a ten-entry trace under the default cap of ten. -/
theorem getResponse_max_iterations_witness :
    demoEng.getResponse (List.replicate 10 (.observation "o")) []
      = .error .maxIterationsReached :=
  getResponse_max_iterations demoEng (List.replicate 10 (.observation "o"))
    [] (by decide) (by decide)

/-- C7: on a non-empty trace whose length differs from the cap, the
assembled text is the terminal step's `response` field when the last
entry is a `Response` step and the last entry's rendered content
otherwise; the given `sources` list is returned untouched (assembly is
a pure function of its two inputs). -/
theorem getResponse_last_entry (eng : Engine)
    (cr : List BaseReasoningStep) (srcs : List ToolOutput)
    (hne : cr ≠ []) (hlen : cr.length ≠ eng.maxIterations) :
    (∀ th r, cr.getLast? = some (.response th r) →
      eng.getResponse cr srcs = .ok ⟨r, srcs⟩)
    ∧ ∀ s, cr.getLast? = some s → (∀ th r, s ≠ .response th r) →
      eng.getResponse cr srcs = .ok ⟨s.getContent, srcs⟩ := by
  constructor
  · intro th r hlast
    unfold Engine.getResponse
    rw [if_neg (fun h0 => hne (List.length_eq_zero.mp h0)), if_neg hlen,
      hlast]
  · intro s hlast hnr
    unfold Engine.getResponse
    rw [if_neg (fun h0 => hne (List.length_eq_zero.mp h0)), if_neg hlen,
      hlast]
    cases s with
    | action th a i => rfl
    | observation o => rfl
    | response th r => exact absurd rfl (hnr th r)

/-- Witness for C7: a singleton terminal trace assembles to its
final-answer field. -/
theorem getResponse_last_entry_witness :
    demoEng.getResponse [.response "t" "ans"] [] = .ok ⟨"ans", []⟩ :=
  (getResponse_last_entry demoEng [.response "t" "ans"] [] (by decide)
    (by decide)).1 "t" "ans" rfl

/-- C9: both streaming entry points fail with `UnsupportedStreaming`
for every step, task and state, and return the state untouched. -/
theorem stream_steps_unsupported (eng : Engine) (step : TaskStep)
    (task : Task) (st : State) :
    eng.streamStep step task st = .error (.unsupportedStreaming, st)
    ∧ eng.astreamStep step task st = .error (.unsupportedStreaming, st) :=
  ⟨rfl, rfl⟩

/-- C6: constructing the engine with a (non-empty) fixed tool list and
a retriever fails with `AmbiguousToolSource` before any step runs, and
constructing it with neither yields an engine resolving the empty tool
set on every input. -/
theorem mkEngine_tool_source (tools : List Tool)
    (retr : String → List Tool)
    (chat achat : List ChatMessage → ChatResponse) (maxIter : Nat)
    (format : List Tool → List ChatMessage → List BaseReasoningStep →
      List ChatMessage)
    (parse : String → Bool → Except String BaseReasoningStep)
    (hne : tools ≠ []) :
    mkEngine tools (some retr) chat achat maxIter format parse
      = .error .ambiguousToolSource
    ∧ ∀ e, mkEngine [] none chat achat maxIter format parse = .ok e →
        ∀ s, e.getTools s = [] := by
  constructor
  · unfold mkEngine
    rw [if_pos ⟨List.length_pos.mpr hne, rfl⟩]
  · intro e he s
    unfold mkEngine at he
    simp only [List.length_nil, gt_iff_lt, Nat.lt_irrefl, false_and,
      if_false, if_neg (lt_irrefl 0), Except.ok.injEq] at he
    rw [← he]
    rfl

/-- Witness for C6: the singleton `search` tool list plus a retriever. -/
theorem mkEngine_tool_source_witness :
    mkEngine [searchTool] (some fun _ => []) demoChat demoChat 10
      demoFormat demoParse = .error .ambiguousToolSource :=
  (mkEngine_tool_source [searchTool] (fun _ => []) demoChat demoChat 10
    demoFormat demoParse (by simp)).1

/-- C5: the §8 two-step scenario — the model first acts with the
`search` tool on input `q = x`, the tool returns `result-y`, the second
model call answers terminally; after the two step runs `sources` holds
exactly the one tool output and the trace holds action, observation,
response in that order. -/
theorem runStep_two_step_scenario :
    demoEng.runStep "s1" demoStep0 demoTask ⟨[], [], []⟩
      = .ok (⟨⟨"Observation: result-y", [⟨"result-y"⟩]⟩, demoStep0, false,
          [⟨"t1", "s1", none⟩]⟩, demoState1)
    ∧ demoEng.runStep "s2" ⟨"t1", "s1", none⟩ demoTask demoState1
      = .ok (⟨⟨"final-answer", [⟨"result-y"⟩]⟩, ⟨"t1", "s1", none⟩, true,
          []⟩, demoState2)
    ∧ demoState2.sources = [⟨"result-y"⟩]
    ∧ demoState2.currentReasoning
      = [.action "think" "search" [("q", "x")], .observation "result-y",
         .response "think" "final-answer"] :=
  ⟨rfl, rfl, rfl, rfl⟩

/-- Claim C1 (amended): when the model output parses to an action whose
tool name is absent from the resolved set, `runStep` fails with
`UnknownTool` and the shared step state is left exactly as it was
before the step run — the action step is not appended to the shared
`current_reasoning` (it lives only in the step-local list that is never
merged), no observation is appended, and nothing is added to
`sources`. -/
theorem runStep_unknown_tool (eng : Engine) (sid : String)
    (step : TaskStep) (task : Task) (st : State) (c th a : String)
    (inp : List (String × String))
    (hc : (eng.chat (eng.format (eng.getTools task.input) st.memory
        st.currentReasoning)).message.content = some c)
    (hp : eng.parse c false = .ok (.action th a inp))
    (hl : dictLookup (eng.getTools task.input) a = none) :
    eng.runStep sid step task st = .error (.unknownTool a, st) := by
  simp only [Engine.runStep,
    processActions_unknown_tool eng (eng.getTools task.input) _ st.sources
      c th a inp hc hp hl]

/-- Witness for C1: the engine whose model names the absent tool
`nonexistent` fails with `UnknownTool` and the state is untouched. -/
theorem runStep_unknown_tool_witness :
    badEng.runStep "s1" demoStep0 demoTask ⟨[], [], []⟩
      = .error (.unknownTool "nonexistent", ⟨[], [], []⟩) :=
  runStep_unknown_tool badEng "s1" demoStep0 demoTask ⟨[], [], []⟩ "bad"
    "think" "nonexistent" [] rfl rfl rfl

/-- Counterexample for C1 as stated: on the unknown-tool failure the
shared trace does NOT hold the parsed action step — the error state is
the untouched initial state, not the state with the action appended
that the claim asserts. -/
theorem runStep_unknown_tool_counterexample :
    badEng.runStep "s1" demoStep0 demoTask ⟨[], [], []⟩
      = .error (.unknownTool "nonexistent", ⟨[], [], []⟩)
    ∧ badEng.runStep "s1" demoStep0 demoTask ⟨[], [], []⟩
      ≠ .error (.unknownTool "nonexistent",
          ⟨[], [.action "think" "nonexistent" []], []⟩) :=
  ⟨rfl, fun h => by
    rw [show badEng.runStep "s1" demoStep0 demoTask ⟨[], [], []⟩
        = .error (.unknownTool "nonexistent", ⟨[], [], []⟩) from rfl] at h
    exact absurd h (by simp)⟩

/-- Claim C10: when the resolved tool's call raises, the error
propagates out of `runStep` as `ToolExecutionError` and the shared step
state is exactly as before the step run — nothing on `sources`, nothing
on `current_reasoning` (not even the parsed action step), because the
step-local reasoning list is merged only after the tool call
succeeds. -/
theorem runStep_tool_error (eng : Engine) (sid : String) (step : TaskStep)
    (task : Task) (st : State) (c th a msg : String)
    (inp : List (String × String)) (tool : Tool)
    (hc : (eng.chat (eng.format (eng.getTools task.input) st.memory
        st.currentReasoning)).message.content = some c)
    (hp : eng.parse c false = .ok (.action th a inp))
    (hl : dictLookup (eng.getTools task.input) a = some tool)
    (hcall : tool.call inp = .error msg) :
    eng.runStep sid step task st
      = .error (.toolExecutionError msg, st) := by
  simp only [Engine.runStep,
    processActions_tool_error eng (eng.getTools task.input) _ st.sources
      c th a msg inp tool hc hp hl hcall]

/-- Witness for C10: a raising `search` tool leaves the fresh state
untouched. -/
theorem runStep_tool_error_witness :
    failEng.runStep "s1" demoStep0 demoTask ⟨[], [], []⟩
      = .error (.toolExecutionError "boom", ⟨[], [], []⟩) :=
  runStep_tool_error failEng "s1" demoStep0 demoTask ⟨[], [], []⟩ "act"
    "think" "search" "boom" [("q", "x")] failTool rfl rfl rfl rfl

/-- The two `_process_actions` forms agree whenever every resolvable
tool's blocking and suspending calls agree (the dict keyed by
`get_name()` equals the dict keyed by `name`). -/
theorem processActions_eq_aprocess (eng : Engine) (tools : List Tool)
    (output : ChatResponse) (sources : List ToolOutput)
    (hcall : ∀ t ∈ tools, t.call = t.acall) :
    eng.processActions tools output sources
      = eng.aprocessActions tools output sources := by
  unfold Engine.processActions Engine.aprocessActions
  cases hx : eng.extractReasoningStep output false with
  | error e => rfl
  | ok trip =>
    obtain ⟨msg, cr, done⟩ := trip
    cases done with
    | true => rfl
    | false =>
      dsimp only
      cases hl : cr.getLast? with
      | none => rfl
      | some s =>
        cases s with
        | observation o => rfl
        | response th r => rfl
        | action th a inp =>
          dsimp only
          rw [adictLookup_eq_dictLookup]
          cases hd : dictLookup tools a with
          | none => rfl
          | some tool =>
            dsimp only
            rw [← hcall tool (dictLookup_mem tools a tool hd)]

/-- Claim C2: given identical model responses (`chat = achat`) and
identical tool outputs (`call = acall` on every resolvable tool), the
blocking `run_step` and the suspending `arun_step` return equal
`TaskStepOutput` values and perform identical state mutations; the
freshly generated step id is supplied as the same argument to both, so
the results agree on it by construction. -/
theorem run_step_eq_arun_step (eng : Engine) (sid : String)
    (step : TaskStep) (task : Task) (st : State)
    (hchat : eng.chat = eng.achat)
    (hcall : ∀ t ∈ eng.getTools task.input, t.call = t.acall) :
    eng.runStep sid step task st = eng.arunStep sid step task st := by
  simp only [Engine.runStep, Engine.arunStep]
  rw [← hchat,
    ← processActions_eq_aprocess eng (eng.getTools task.input) _
      st.sources hcall]

/-- Witness for C2: the demo engine's two forms agree on the first
step of the two-step scenario. -/
theorem run_step_eq_arun_step_witness :
    demoEng.runStep "s1" demoStep0 demoTask ⟨[], [], []⟩
      = demoEng.arunStep "s1" demoStep0 demoTask ⟨[], [], []⟩ :=
  run_step_eq_arun_step demoEng "s1" demoStep0 demoTask ⟨[], [], []⟩ rfl
    (fun t ht => by
      rw [show demoEng.getTools demoTask.input = [searchTool] from rfl,
        List.mem_singleton] at ht
      rw [ht]
      rfl)

/-- Claim C8: every successful step run strictly extends the shared
`current_reasoning` by appending a non-empty tail, so the trace never
shrinks and every entry present before the run is present, unchanged
and at the same index, after it. -/
theorem runStep_trace_append (eng : Engine) (sid : String)
    (step : TaskStep) (task : Task) (st : State) (out : TaskStepOutput)
    (st' : State)
    (h : eng.runStep sid step task st = .ok (out, st')) :
    ∃ tail, tail ≠ [] ∧
      st'.currentReasoning = st.currentReasoning ++ tail := by
  unfold Engine.runStep at h
  cases hpa : eng.processActions (eng.getTools task.input)
      (eng.chat (eng.format (eng.getTools task.input) st.memory
        st.currentReasoning)) st.sources with
  | error e => simp only [hpa] at h; exact Except.noConfusion h
  | ok res =>
    obtain ⟨rs, d, s'⟩ := res
    simp only [hpa] at h
    split at h
    · exact Except.noConfusion h
    · simp only [Except.ok.injEq, Prod.mk.injEq] at h
      refine ⟨rs, processActions_ok_ne_nil eng _ _ _ rs d s' hpa, ?_⟩
      rw [← h.2]

/-- Witness for C8: the first demo step extends the empty trace by a
non-empty tail. -/
theorem runStep_trace_append_witness :
    ∃ tail, tail ≠ [] ∧ demoState1.currentReasoning
      = (⟨[], [], []⟩ : State).currentReasoning ++ tail :=
  runStep_trace_append demoEng "s1" demoStep0 demoTask ⟨[], [], []⟩
    ⟨⟨"Observation: result-y", [⟨"result-y"⟩]⟩, demoStep0, false,
     [⟨"t1", "s1", none⟩]⟩ demoState1 rfl

/-- Claim C4 (amended): provided response assembly succeeds — the
updated trace length does not hit the configured maximum iteration
count — a terminal (`Response`) parse makes `runStep` return
`is_last = true` with zero follow-up steps, and an action parse whose
tool resolves and whose call succeeds makes it return `is_last = false`
with exactly one follow-up step. -/
theorem runStep_islast_shape (eng : Engine) (sid : String)
    (step : TaskStep) (task : Task) (st : State) (c : String)
    (hc : (eng.chat (eng.format (eng.getTools task.input) st.memory
        st.currentReasoning)).message.content = some c) :
    ((∃ th r, eng.parse c false = .ok (.response th r)) →
      st.currentReasoning.length + 1 ≠ eng.maxIterations →
      ∃ out st', eng.runStep sid step task st = .ok (out, st')
        ∧ out.isLast = true ∧ out.nextSteps = [])
    ∧ (∀ th a inp tool outp,
      eng.parse c false = .ok (.action th a inp) →
      dictLookup (eng.getTools task.input) a = some tool →
      tool.call inp = .ok outp →
      st.currentReasoning.length + 2 ≠ eng.maxIterations →
      ∃ out st', eng.runStep sid step task st = .ok (out, st')
        ∧ out.isLast = false ∧ out.nextSteps.length = 1) := by
  constructor
  · rintro ⟨th, r, hp⟩ hlen
    have heq : eng.runStep sid step task st
        = .ok (⟨⟨r, st.sources⟩, step, true, []⟩,
            ⟨st.sources, st.currentReasoning ++ [.response th r],
             st.memory ++ [⟨.assistant, some r⟩]⟩) := by
      simp only [Engine.runStep,
        processActions_done eng (eng.getTools task.input) _ st.sources c _
          hc hp rfl,
        getResponse_terminal_append eng st.currentReasoning st.sources
          th r hlen, if_true, Bool.false_eq_true, if_false]
    exact ⟨_, _, heq, rfl, rfl⟩
  · intro th a inp tool outp hp hl hcall hlen
    have heq : eng.runStep sid step task st
        = .ok (⟨⟨(BaseReasoningStep.observation outp.toStr).getContent,
              st.sources ++ [outp]⟩, step, false,
              [step.getNextStep sid none]⟩,
            ⟨st.sources ++ [outp],
             st.currentReasoning
               ++ [.action th a inp, .observation outp.toStr],
             st.memory⟩) := by
      simp only [Engine.runStep,
        processActions_action_ok eng (eng.getTools task.input) _
          st.sources c th a inp tool outp hc hp hl hcall,
        getResponse_obs_append eng st.currentReasoning
          (st.sources ++ [outp]) (.action th a inp) outp.toStr hlen,
        if_true, Bool.false_eq_true, if_false]
    exact ⟨_, _, heq, rfl, rfl⟩

/-- Witness for C4: a terminal parse under the default cap yields
`is_last = true` with no follow-ups; the demo action parse yields
`is_last = false` with one follow-up. -/
theorem runStep_islast_shape_witness :
    (∃ out st', ansEng.runStep "s1" demoStep0 demoTask ⟨[], [], []⟩
        = .ok (out, st') ∧ out.isLast = true ∧ out.nextSteps = [])
    ∧ (∃ out st', demoEng.runStep "s1" demoStep0 demoTask ⟨[], [], []⟩
        = .ok (out, st') ∧ out.isLast = false
        ∧ out.nextSteps.length = 1) :=
  ⟨(runStep_islast_shape ansEng "s1" demoStep0 demoTask ⟨[], [], []⟩ "ans"
      rfl).1 ⟨"think", "final-answer", rfl⟩ (by decide),
   (runStep_islast_shape demoEng "s1" demoStep0 demoTask ⟨[], [], []⟩
      "act" rfl).2 "think" "search" [("q", "x")] searchTool ⟨"result-y"⟩
      rfl rfl rfl (by decide)⟩

/-- Counterexample for C4 as stated: with the iteration cap set to one,
a terminal parse does not return `is_last = true` — the step run fails
with `MaxIterationsReached` instead. -/
theorem runStep_islast_counterexample :
    max1Eng.runStep "s1" demoStep0 demoTask ⟨[], [], []⟩
      = .error (.maxIterationsReached,
          ⟨[], [.response "think" "final-answer"], []⟩) := rfl

end ReactV1
